import Mathlib

/-!
Shallow embedding of the order-lifecycle slice of the Easy-Fix restaurant
system: the data model (orders/models.py, restaurant/models.py,
accounts/models.py) and the order views (orders/views.py).  Machine state
is a record of entity lists; each Django view becomes a pure function from
a state and request parameters to a new state plus a result.  A body
wrapped in transaction.atomic that raises is modelled by returning the
original state together with an error result.
-/

namespace EasyFix

/-- Order.STATUS_CHOICES (orders/models.py). -/
inductive OrderStatus where
  | pending
  | confirmed
  | preparing
  | ready
  | served
  | cancelled
  | customer_refused
  | kitchen_error
  | quality_issue
  | wasted
deriving DecidableEq, Repr, Fintype

/-- Order.PAYMENT_STATUS_CHOICES; `partiallyPaid` models the source string
for a partly paid order. -/
inductive PaymentStatus where
  | unpaid
  | paid
  | partiallyPaid
deriving DecidableEq, Repr, Fintype

/-- Product.station routing target (restaurant/models.py). -/
inductive Station where
  | kitchen
  | bar
deriving DecidableEq, Repr, Fintype

/-- Role.ROLE_CHOICES (accounts/models.py). -/
inductive RoleName where
  | administrator
  | owner
  | customer_care
  | kitchen
  | bar
  | cashier
  | customer
deriving DecidableEq, Repr, Fintype

/-- accounts.models.User, restricted to the fields the order views read:
`role` (nullable FK to Role, by name), `owner` (nullable FK to the owner
user, by id) and `tax_rate`. -/
structure User where
  id : Nat
  role : Option RoleName
  owner : Option Nat
  tax_rate : Int
deriving DecidableEq, Repr

/-- restaurant.models.TableInfo: owner FK (owner user id), table number,
availability flag. -/
structure TableInfo where
  id : Nat
  owner : Nat
  tbl_no : String
  is_available : Bool
deriving DecidableEq, Repr

/-- restaurant.models.Product, restricted to the fields the order views
read; `owner` stands for main_category.owner. -/
structure Product where
  id : Nat
  owner : Nat
  name : String
  price : Int
  available_in_stock : Int
  station : Station
  is_available : Bool
deriving DecidableEq, Repr

/-- orders.models.Order; `table_info` and `ordered_by` are FKs by id. -/
structure Order where
  id : Nat
  order_number : String
  table_info : Nat
  ordered_by : Nat
  confirmed_by : Option Nat
  status : OrderStatus
  total_amount : Int
  payment_status : PaymentStatus
  reason_if_cancelled : String
deriving DecidableEq, Repr

/-- orders.models.OrderItem; `order` and `product` are FKs by id. -/
structure OrderItem where
  order : Nat
  product : Nat
  quantity : Nat
  unit_price : Int
deriving DecidableEq, Repr

/-- The persistent store: one list per table of the relational schema. -/
structure DB where
  users : List User
  tables : List TableInfo
  products : List Product
  orders : List Order
  order_items : List OrderItem
deriving DecidableEq, Repr

def User.is_administrator (u : User) : Bool := decide (u.role = some RoleName.administrator)

def User.is_owner (u : User) : Bool := decide (u.role = some RoleName.owner)

def User.is_customer_care (u : User) : Bool := decide (u.role = some RoleName.customer_care)

def User.is_kitchen_staff (u : User) : Bool := decide (u.role = some RoleName.kitchen)

def User.is_bar_staff (u : User) : Bool := decide (u.role = some RoleName.bar)

def User.is_cashier (u : User) : Bool := decide (u.role = some RoleName.cashier)

def User.is_customer (u : User) : Bool := decide (u.role = some RoleName.customer)

/-- Result of accounts.models.get_owner_filter: administrators get no
filter (see all data), everyone else is scoped to one owner id. -/
inductive OwnerFilter where
  | all
  | only (ownerId : Nat)
deriving DecidableEq, Repr

/-- accounts.models.get_owner_filter: administrator gives None (model
constructor `all`), an owner filters by itself, staff and customers by
their assigned owner, and a user with no owner raises PermissionDenied. -/
def get_owner_filter (u : User) : Except String OwnerFilter :=
  if u.is_administrator then Except.ok OwnerFilter.all
  else if u.is_owner then Except.ok (OwnerFilter.only u.id)
  else
    match u.owner with
    | some o => Except.ok (OwnerFilter.only o)
    | none => Except.error "User is not associated with any owner."

def DB.findTable (db : DB) (tid : Nat) : Option TableInfo :=
  db.tables.find? (fun t => decide (t.id = tid))

def DB.findProduct (db : DB) (pid : Nat) : Option Product :=
  db.products.find? (fun p => decide (p.id = pid))

def DB.findOrder (db : DB) (oid : Nat) : Option Order :=
  db.orders.find? (fun o => decide (o.id = oid))

/-- The owner id of an order reached through its table, the join
`table_info__owner` used by the owner-filtered queries. -/
def orderTableOwner (db : DB) (o : Order) : Option Nat :=
  (db.findTable o.table_info).map (fun t => t.owner)

/-- Does an order pass the owner filter used in the views
(`table_info__owner=owner_filter`, or no filter for administrators)? -/
def ownerMatches (db : DB) (f : OwnerFilter) (o : Order) : Bool :=
  match f with
  | OwnerFilter.all => true
  | OwnerFilter.only oid => decide (orderTableOwner db o = some oid)

/-- get_object_or_404(Order, id=order_id, table_info__owner=owner_filter)
resp. without the owner clause for administrators. -/
def DB.findOrderScoped (db : DB) (oid : Nat) (f : OwnerFilter) : Option Order :=
  db.orders.find? (fun o => decide (o.id = oid) && ownerMatches db f o)

/-- Write an order row back (order.save() on an existing row). -/
def DB.setOrder (db : DB) (o : Order) : DB :=
  { db with orders := db.orders.map (fun x => if x.id = o.id then o else x) }

/-- Write the availability flag of one table row. -/
def DB.setTableAvailable (db : DB) (tid : Nat) (b : Bool) : DB :=
  { db with tables := db.tables.map (fun t => if t.id = tid then { t with is_available := b } else t) }

/-- The five statuses Order.release_table treats as active. -/
def isActiveStatus (s : OrderStatus) : Bool :=
  decide (s = OrderStatus.pending) || decide (s = OrderStatus.confirmed) ||
  decide (s = OrderStatus.preparing) || decide (s = OrderStatus.ready) ||
  decide (s = OrderStatus.served)

def isUnpaidOrPartialPay (p : PaymentStatus) : Bool :=
  decide (p = PaymentStatus.unpaid) || decide (p = PaymentStatus.partiallyPaid)

/-- orders.models.Order.release_table: the table is flipped back to
available only when no other order on the same table is in an active
status with payment still open. -/
def release_table (db : DB) (self : Order) : DB :=
  let other_active_orders := db.orders.filter (fun x =>
    decide (x.table_info = self.table_info) && isActiveStatus x.status &&
    isUnpaidOrPartialPay x.payment_status && decide (x.id ≠ self.id))
  if other_active_orders.isEmpty then db.setTableAvailable self.table_info true else db

/-- orders.models.Order.is_table_occupying. -/
def Order.is_table_occupying (o : Order) : Bool :=
  !(decide (o.status = OrderStatus.cancelled) || decide (o.status = OrderStatus.customer_refused) ||
    decide (o.status = OrderStatus.kitchen_error) || decide (o.status = OrderStatus.quality_issue) ||
    decide (o.status = OrderStatus.wasted)) && decide (o.payment_status ≠ PaymentStatus.paid)

/-- orders.models.Order.occupy_table. -/
def occupy_table (db : DB) (o : Order) : DB :=
  if o.is_table_occupying then db.setTableAvailable o.table_info false else db

/-- Order.objects.create: insert the row, then the save() hook occupies
the table for a new active order. -/
def createOrder (db : DB) (o : Order) : DB :=
  occupy_table { db with orders := db.orders ++ [o] } o

/-- Outcome of a view that answers with a JsonResponse or a message:
success carries the success message, err the error message. -/
inductive ViewResult where
  | ok (message : String)
  | err (message : String)
deriving DecidableEq, Repr

/-- orders.views.confirm_order: kitchen staff only; the order is looked up
by id and status pending with no owner clause; on success it is set to
confirmed, confirmed_by is recorded, and the table row is marked
unavailable.  A failing lookup raises and the surrounding except block
answers with a generic error. -/
def confirm_order (db : DB) (user : User) (order_id : Nat) : DB × ViewResult :=
  if !user.is_kitchen_staff then (db, ViewResult.err "Access denied.")
  else
    match db.orders.find? (fun o => decide (o.id = order_id) && decide (o.status = OrderStatus.pending)) with
    | none => (db, ViewResult.err "An error occurred.")
    | some o =>
      let o2 := { o with status := OrderStatus.confirmed, confirmed_by := some user.id }
      let db2 := (db.setOrder o2).setTableAvailable o.table_info false
      (db2, ViewResult.ok "confirmed")

/-- orders.views.order_list: customer-care users see the orders they
placed; every other caller gets Order.objects.all() with no owner
clause.  The rendered queryset is modelled as the returned list (the
created-at ordering is dropped, it touches no claim). -/
def order_list (db : DB) (user : User) : List Order :=
  if user.is_customer_care then db.orders.filter (fun o => decide (o.ordered_by = user.id))
  else db.orders

/-- The target whitelist at the top of orders.views.update_order_status:
a requested status outside this list answers Invalid status. -/
def allowedTargets : List OrderStatus :=
  [OrderStatus.confirmed, OrderStatus.preparing, OrderStatus.ready,
   OrderStatus.served, OrderStatus.cancelled]

/-- The effective valid_transitions table of update_order_status.  The
view always reaches the staff branch (its entry check admits only kitchen
or bar staff), so the base map updated with the backward corrections is
the one consulted; statuses missing from the python dict fall back to
the empty list via .get. -/
def valid_transitions_staff (s : OrderStatus) : List OrderStatus :=
  match s with
  | OrderStatus.pending => [OrderStatus.confirmed, OrderStatus.cancelled]
  | OrderStatus.confirmed => [OrderStatus.pending, OrderStatus.preparing, OrderStatus.cancelled]
  | OrderStatus.preparing => [OrderStatus.confirmed, OrderStatus.ready, OrderStatus.cancelled]
  | OrderStatus.ready => [OrderStatus.preparing, OrderStatus.served, OrderStatus.cancelled]
  | OrderStatus.served => [OrderStatus.ready, OrderStatus.cancelled]
  | _ => []

/-- Does the order have at least one item routed to the given station
(the generator expressions over order.order_items in the dashboards and
update_order_status)? -/
def DB.orderHasStation (db : DB) (o : Order) (st : Station) : Bool :=
  db.order_items.any (fun it =>
    decide (it.order = o.id) &&
    decide ((db.findProduct it.product).map Product.station = some st))

/-- orders.views.update_order_status: entry check for kitchen or bar
staff, owner filter, target whitelist, owner-scoped order lookup, station
checks, transition table, then the mutation.  A cancellation stores the
reason and releases the table but never touches product stock; the save
happens before the notification sends, which are outside any
transaction and not modelled here. -/
def update_order_status (db : DB) (user : User) (order_id : Nat)
    (new_status : OrderStatus) (cancel_reason : String) : DB × ViewResult :=
  if !(user.is_kitchen_staff || user.is_bar_staff) then (db, ViewResult.err "Access denied.")
  else
    match get_owner_filter user with
    | Except.error _ => (db, ViewResult.err "An error occurred.")
    | Except.ok f =>
      if !(decide (new_status ∈ allowedTargets)) then (db, ViewResult.err "Invalid status.")
      else
        match db.findOrderScoped order_id f with
        | none => (db, ViewResult.err "An error occurred.")
        | some o =>
          if user.is_bar_staff && !(db.orderHasStation o Station.bar) then
            (db, ViewResult.err "Access denied. This order contains no bar items.")
          else if user.is_kitchen_staff && !(db.orderHasStation o Station.kitchen) then
            (db, ViewResult.err "Access denied. This order contains no kitchen items.")
          else if !(decide (new_status ∈ valid_transitions_staff o.status)) then
            (db, ViewResult.err "Invalid status transition.")
          else
            let o1 :=
              if new_status = OrderStatus.cancelled then
                { o with reason_if_cancelled := cancel_reason }
              else o
            let o2 := { o1 with status := new_status }
            let o3 :=
              if new_status = OrderStatus.confirmed ∧ o.confirmed_by = none then
                { o2 with confirmed_by := some user.id }
              else o2
            let db1 := if new_status = OrderStatus.cancelled then release_table db o3 else db
            ((db1.setOrder o3), ViewResult.ok "updated")

/-- The item rows of one order (order.order_items.all()). -/
def order_items_of (db : DB) (oid : Nat) : List OrderItem :=
  db.order_items.filter (fun it => decide (it.order = oid))

/-- The stock-restore loop shared by cancel_order and
customer_cancel_order: each item adds its quantity back onto its
product row. -/
def restoreStock : List OrderItem → List Product → List Product
  | [], ps => ps
  | it :: rest, ps =>
    restoreStock rest (ps.map (fun p =>
      if p.id = it.product then
        { p with available_in_stock := p.available_in_stock + (it.quantity : Int) }
      else p))

/-- orders.views.cancel_order, JSON branch: kitchen staff only, owner
filter, owner-scoped lookup; orders already served or cancelled are
refused; a blank (stripped) reason is refused; otherwise stock is
restored, the order set cancelled with its reason, and the table
released.  `reason` is taken already stripped. -/
def cancel_order (db : DB) (user : User) (order_id : Nat) (reason : String) : DB × ViewResult :=
  if !user.is_kitchen_staff then
    (db, ViewResult.err "Access denied. Kitchen staff privileges required.")
  else
    match get_owner_filter user with
    | Except.error _ => (db, ViewResult.err "You are not associated with any restaurant.")
    | Except.ok f =>
      match db.findOrderScoped order_id f with
      | none => (db, ViewResult.err "Not found")
      | some o =>
        if o.status = OrderStatus.served ∨ o.status = OrderStatus.cancelled then
          (db, ViewResult.err "Cannot cancel this order.")
        else if reason = "" then
          (db, ViewResult.err "Cancellation reason is required.")
        else
          let db1 := { db with products := restoreStock (order_items_of db o.id) db.products }
          let o2 := { o with status := OrderStatus.cancelled, reason_if_cancelled := reason }
          let db2 := release_table db1 o2
          (db2.setOrder o2, ViewResult.ok "cancelled")

/-- orders.views.customer_cancel_order, JSON branch: customers cancel
their own orders, customer care cancels owner-scoped ones; only a
pending order may be cancelled, anything else answers that it has
already been confirmed; on success stock is restored, the order set
cancelled, and the table released. -/
def customer_cancel_order (db : DB) (user : User) (order_id : Nat) (reason : String) : DB × ViewResult :=
  if !(user.is_customer || user.is_customer_care) then
    (db, ViewResult.err "Access denied. Customer privileges required.")
  else
    let found : Except String Order :=
      if user.is_customer then
        match db.orders.find? (fun o => decide (o.id = order_id) && decide (o.ordered_by = user.id)) with
        | some o => Except.ok o
        | none => Except.error "Not found"
      else
        match get_owner_filter user with
        | Except.error _ => Except.error "You are not associated with any restaurant."
        | Except.ok f =>
          match db.findOrderScoped order_id f with
          | some o => Except.ok o
          | none => Except.error "Not found"
    match found with
    | Except.error m => (db, ViewResult.err m)
    | Except.ok o =>
      if o.status ≠ OrderStatus.pending then
        (db, ViewResult.err "Order cannot be cancelled. It has already been confirmed by the kitchen.")
      else
        let db1 := { db with products := restoreStock (order_items_of db o.id) db.products }
        let o2 := { o with status := OrderStatus.cancelled, reason_if_cancelled := reason }
        let db2 := release_table db1 o2
        (db2.setOrder o2, ViewResult.ok "cancelled")

/-- One line of the session cart (orders.views.add_to_cart): the stored
price is the promotion-resolved current price at the last mutation. -/
structure CartItem where
  name : String
  price : Int
  quantity : Nat
deriving DecidableEq, Repr

/-- The session cart: an insertion-ordered mapping product id to line,
as a python dict preserves insertion order. -/
abbrev Cart := List (Nat × CartItem)

/-- Outcome of place_order: the id of the created order on success, the
message shown on the cart page on failure. -/
inductive PlaceResult where
  | placed (order_id : Nat)
  | failed (message : String)
deriving DecidableEq, Repr

/-- Restaurant-context resolution at the top of place_order: customer
care with an assigned owner uses it, everyone else needs the QR-session
restaurant id which must name a user with the owner role. -/
def resolveRestaurant (db : DB) (user : User) (selected_restaurant_id : Option Nat) :
    Except String Nat :=
  if user.is_customer_care && user.owner.isSome then
    match user.owner with
    | some oid => Except.ok oid
    | none => Except.error "unreachable"
  else
    match selected_restaurant_id with
    | none => Except.error "Restaurant context not found. Please scan QR code again."
    | some rid =>
      match db.users.find? (fun v => decide (v.id = rid) && decide (v.role = some RoleName.owner)) with
      | some r => Except.ok r.id
      | none => Except.error "Selected restaurant not found."

/-- The per-line loop of place_order: look the product up, raise on
insufficient stock, record an OrderItem snapshotting product.price as
unit_price, decrement the stock, and add the cart price times quantity
onto the running total. -/
def processCartItems (oid : Nat) : Cart → List Product →
    Except String (List Product × List OrderItem × Int)
  | [], ps => Except.ok (ps, [], 0)
  | (pid, item) :: rest, ps =>
    match ps.find? (fun p => decide (p.id = pid)) with
    | none => Except.error "No Product matches the given query."
    | some p =>
      if p.available_in_stock < (item.quantity : Int) then
        Except.error ("Insufficient stock for " ++ p.name)
      else
        let ps2 := ps.map (fun q =>
          if q.id = pid then
            { q with available_in_stock := q.available_in_stock - (item.quantity : Int) }
          else q)
        let oi : OrderItem := { order := oid, product := pid, quantity := item.quantity, unit_price := p.price }
        match processCartItems oid rest ps2 with
        | Except.error e => Except.error e
        | Except.ok (ps3, ois, t) => Except.ok (ps3, oi :: ois, item.price * (item.quantity : Int) + t)

/-- The auto primary key handed to a new order row. -/
def DB.nextOrderId (db : DB) : Nat :=
  (db.orders.map (fun o => o.id)).foldr Nat.max 0 + 1

/-- orders.views.place_order, POST branch with a valid form.  Everything
from restaurant resolution to the two channel-layer publishes runs
inside one transaction.atomic block whose exceptions are caught and
answered with an error, so any raise - a missing product, insufficient
stock, a duplicate order_number on insert, or a failing publish
(publish_ok = false) - leaves the store untouched.  `order_number` is
the single uuid-derived candidate the view generates; there is no
regeneration loop. -/
def place_order (db : DB) (user : User) (cart : Cart) (selected_table : String)
    (selected_restaurant_id : Option Nat) (order_number : String)
    (publish_ok : Bool) : DB × PlaceResult :=
  if cart.isEmpty then (db, PlaceResult.failed "Your cart is empty.")
  else
    match resolveRestaurant db user selected_restaurant_id with
    | Except.error m => (db, PlaceResult.failed m)
    | Except.ok restId =>
      match db.tables.find? (fun t => decide (t.tbl_no = selected_table) && decide (t.owner = restId)) with
      | none => (db, PlaceResult.failed "Table not found in this restaurant.")
      | some table =>
        if db.orders.any (fun o => decide (o.order_number = order_number)) then
          (db, PlaceResult.failed "Error placing order: duplicate order number")
        else
          let o0 : Order :=
            { id := db.nextOrderId, order_number := order_number, table_info := table.id,
              ordered_by := user.id, confirmed_by := none, status := OrderStatus.pending,
              total_amount := 0, payment_status := PaymentStatus.unpaid, reason_if_cancelled := "" }
          let db1 := createOrder db o0
          match processCartItems o0.id cart db1.products with
          | Except.error m => (db, PlaceResult.failed ("Error placing order: " ++ m))
          | Except.ok (ps2, ois, total) =>
            let db2 := { db1 with products := ps2, order_items := db1.order_items ++ ois }
            let db3 := db2.setOrder { o0 with total_amount := total }
            if publish_ok then (db3, PlaceResult.placed o0.id)
            else (db, PlaceResult.failed "Error placing order: notification failure")

/-- Modelled from the spec: the paragraph 4.3 transition graph.  Forward
chain pending to served, cancelled reachable from every non-terminal
state and from served (post-hoc correction), the four backward staff
corrections, and the waste variants reachable from served or ready via
the external waste collaborator.  The waste variants and cancelled are
terminal. -/
def specEdge : OrderStatus → OrderStatus → Bool
  | OrderStatus.pending, OrderStatus.confirmed => true
  | OrderStatus.confirmed, OrderStatus.preparing => true
  | OrderStatus.preparing, OrderStatus.ready => true
  | OrderStatus.ready, OrderStatus.served => true
  | OrderStatus.pending, OrderStatus.cancelled => true
  | OrderStatus.confirmed, OrderStatus.cancelled => true
  | OrderStatus.preparing, OrderStatus.cancelled => true
  | OrderStatus.ready, OrderStatus.cancelled => true
  | OrderStatus.served, OrderStatus.cancelled => true
  | OrderStatus.confirmed, OrderStatus.pending => true
  | OrderStatus.preparing, OrderStatus.confirmed => true
  | OrderStatus.ready, OrderStatus.preparing => true
  | OrderStatus.served, OrderStatus.ready => true
  | OrderStatus.served, OrderStatus.customer_refused => true
  | OrderStatus.served, OrderStatus.kitchen_error => true
  | OrderStatus.served, OrderStatus.quality_issue => true
  | OrderStatus.served, OrderStatus.wasted => true
  | OrderStatus.ready, OrderStatus.customer_refused => true
  | OrderStatus.ready, OrderStatus.kitchen_error => true
  | OrderStatus.ready, OrderStatus.quality_issue => true
  | OrderStatus.ready, OrderStatus.wasted => true
  | _, _ => false

/-- The cart subtotal at the promotion-resolved prices stored in the
session cart: sum over lines of price times quantity. -/
def cartSubtotal (cart : Cart) : Int :=
  (cart.map (fun line => line.2.price * (line.2.quantity : Int))).sum

/-- Total quantity the cancellation loop adds back onto one product:
the sum of the quantities of the order items referencing it. -/
def restoredQty (items : List OrderItem) (pid : Nat) : Nat :=
  ((items.filter (fun it => decide (it.product = pid))).map (fun it => it.quantity)).sum

/-! Concrete store used to evaluate the operations: restaurant 1 with its
staff, a second restaurant 9, two tables per tenant, two products, and
one order in each lifecycle status. -/

def owner1 : User := { id := 1, role := some RoleName.owner, owner := none, tax_rate := 80 }

def owner9 : User := { id := 9, role := some RoleName.owner, owner := none, tax_rate := 100 }

def kitchen2 : User := { id := 2, role := some RoleName.kitchen, owner := some 1, tax_rate := 0 }

def bar3 : User := { id := 3, role := some RoleName.bar, owner := some 1, tax_rate := 0 }

def care4 : User := { id := 4, role := some RoleName.customer_care, owner := some 1, tax_rate := 0 }

def cust5 : User := { id := 5, role := some RoleName.customer, owner := none, tax_rate := 0 }

def tbl11 : TableInfo := { id := 11, owner := 1, tbl_no := "1", is_available := false }

def tbl12 : TableInfo := { id := 12, owner := 1, tbl_no := "2", is_available := true }

def tbl91 : TableInfo := { id := 91, owner := 9, tbl_no := "1", is_available := true }

def prodA : Product :=
  { id := 21, owner := 1, name := "A", price := 5000, available_in_stock := 10,
    station := Station.kitchen, is_available := true }

def prodB : Product :=
  { id := 22, owner := 1, name := "B", price := 8000, available_in_stock := 10,
    station := Station.bar, is_available := true }

def mkOrder (oid : Nat) (num : String) (tid : Nat) (s : OrderStatus) : Order :=
  { id := oid, order_number := num, table_info := tid, ordered_by := 5,
    confirmed_by := none, status := s, total_amount := 0,
    payment_status := PaymentStatus.unpaid, reason_if_cancelled := "" }

def o800 : Order := mkOrder 800 "ORD-800" 11 OrderStatus.pending

def o810 : Order := mkOrder 810 "ORD-810" 11 OrderStatus.confirmed

def o820 : Order := mkOrder 820 "ORD-820" 11 OrderStatus.preparing

def o830 : Order := mkOrder 830 "ORD-830" 11 OrderStatus.ready

def o840 : Order := mkOrder 840 "ORD-840" 11 OrderStatus.served

def o850 : Order := mkOrder 850 "ORD-850" 12 OrderStatus.wasted

def o890 : Order := mkOrder 890 "ORD-890" 91 OrderStatus.pending

def mkItem (oid : Nat) : OrderItem :=
  { order := oid, product := 21, quantity := 2, unit_price := 5000 }

def wdb : DB :=
  { users := [owner1, owner9, kitchen2, bar3, care4, cust5],
    tables := [tbl11, tbl12, tbl91],
    products := [prodA, prodB],
    orders := [o800, o810, o820, o830, o840, o850, o890],
    order_items := [mkItem 800, mkItem 810, mkItem 820, mkItem 830, mkItem 840, mkItem 850,
                    { order := 810, product := 22, quantity := 1, unit_price := 8000 }] }

/-- The scenario cart of paragraph 8: two of item A at 5.00 and one of
item B whose active 10 percent promotion puts its stored price at 7.20
(36/5). -/
def goodCart : Cart :=
  [(21, { name := "A", price := 5000, quantity := 2 }),
   (22, { name := "B", price := 7200, quantity := 1 })]

/-- A one-line cart asking for more units of product A than are in
stock. -/
def lowCart : Cart := [(21, { name := "A", price := 5000, quantity := 11 })]

lemma setOrder_products (db : DB) (o : Order) : (db.setOrder o).products = db.products := rfl

lemma setOrder_tables (db : DB) (o : Order) : (db.setOrder o).tables = db.tables := rfl

lemma setTableAvailable_products (db : DB) (tid : Nat) (b : Bool) :
    (db.setTableAvailable tid b).products = db.products := rfl

lemma setTableAvailable_orders (db : DB) (tid : Nat) (b : Bool) :
    (db.setTableAvailable tid b).orders = db.orders := rfl

lemma release_table_products (db : DB) (o : Order) :
    (release_table db o).products = db.products := by
  unfold release_table
  dsimp only
  split <;> rfl

lemma release_table_orders (db : DB) (o : Order) :
    (release_table db o).orders = db.orders := by
  unfold release_table
  dsimp only
  split <;> rfl

lemma createOrder_products (db : DB) (o : Order) :
    (createOrder db o).products = db.products := by
  unfold createOrder occupy_table
  split <;> rfl

/-- Every transition the staff table of update_order_status accepts is an
edge of the paragraph 4.3 graph. -/
lemma staff_transitions_subgraph :
    ∀ s t : OrderStatus, t ∈ valid_transitions_staff s → specEdge s t = true := by
  decide

lemma createOrder_orders (db : DB) (o : Order) :
    (createOrder db o).orders = db.orders ++ [o] := by
  unfold createOrder occupy_table
  split <;> rfl

lemma restoreStock_eq (items : List OrderItem) :
    ∀ ps : List Product,
      restoreStock items ps =
        ps.map (fun p =>
          { p with available_in_stock := p.available_in_stock + (restoredQty items p.id : Int) }) := by
  induction items with
  | nil =>
    intro ps
    have hfun : (fun p : Product =>
        { p with available_in_stock := p.available_in_stock + (restoredQty [] p.id : Int) }) =
        fun p => p := by
      funext p
      simp [restoredQty]
    rw [restoreStock, hfun, List.map_id']
  | cons it rest ih =>
    intro ps
    rw [restoreStock, ih, List.map_map]
    have hfun : ((fun p : Product =>
        { p with available_in_stock := p.available_in_stock + (restoredQty rest p.id : Int) }) ∘
        (fun p : Product =>
          if p.id = it.product then
            { p with available_in_stock := p.available_in_stock + (it.quantity : Int) }
          else p)) =
        fun p : Product =>
          { p with available_in_stock := p.available_in_stock + (restoredQty (it :: rest) p.id : Int) } := by
      funext p
      by_cases hc : p.id = it.product
      · simp only [Function.comp_apply, if_pos hc]
        have hq : restoredQty (it :: rest) p.id = it.quantity + restoredQty rest p.id := by
          simp [restoredQty, List.filter_cons, hc.symm]
        rw [hq]
        simp [Product.mk.injEq]
        ring
      · simp only [Function.comp_apply, if_neg hc]
        have hq : restoredQty (it :: rest) p.id = restoredQty rest p.id := by
          have : ¬ (it.product = p.id) := fun hcc => hc hcc.symm
          simp [restoredQty, List.filter_cons, this]
        rw [hq]
    rw [hfun]

lemma stockOf_decrement_other (qid pid : Nat) (n : Int) (hne : pid ≠ qid) :
    ∀ ps : List Product,
      (ps.map (fun q =>
          if q.id = qid then { q with available_in_stock := q.available_in_stock - n } else q)).find?
        (fun p => decide (p.id = pid)) =
      ps.find? (fun p => decide (p.id = pid)) := by
  intro ps
  induction ps with
  | nil => rfl
  | cons a l ih =>
    by_cases hpa : a.id = pid
    · have ha : ¬ a.id = qid := by rw [hpa]; exact hne
      simp only [List.map_cons, if_neg ha]
      rw [List.find?_cons_of_pos _ (by simp [hpa]), List.find?_cons_of_pos _ (by simp [hpa])]
    · by_cases ha : a.id = qid
      · simp only [List.map_cons, if_pos ha]
        rw [List.find?_cons_of_neg _ (by simp [hpa]), List.find?_cons_of_neg _ (by simp [hpa])]
        exact ih
      · simp only [List.map_cons, if_neg ha]
        rw [List.find?_cons_of_neg _ (by simp [hpa]), List.find?_cons_of_neg _ (by simp [hpa])]
        exact ih

lemma processCartItems_total (oid : Nat) :
    ∀ (cart : Cart) (ps ps3 : List Product) (ois : List OrderItem) (t : Int),
      processCartItems oid cart ps = Except.ok (ps3, ois, t) → t = cartSubtotal cart := by
  intro cart
  induction cart with
  | nil =>
    intro ps ps3 ois t hok
    simp only [processCartItems] at hok
    cases hok
    simp [cartSubtotal]
  | cons hd tl ih =>
    intro ps ps3 ois t hok
    simp only [processCartItems] at hok
    rcases hfind : ps.find? (fun p => decide (p.id = hd.1)) with _ | q
    · rw [hfind] at hok
      cases hok
    · rw [hfind] at hok
      dsimp only at hok
      by_cases hlt : q.available_in_stock < (hd.2.quantity : Int)
      · rw [if_pos hlt] at hok
        cases hok
      · rw [if_neg hlt] at hok
        rcases hrec : processCartItems oid tl (ps.map (fun q2 =>
            if q2.id = hd.1 then
              { q2 with available_in_stock := q2.available_in_stock - (hd.2.quantity : Int) }
            else q2)) with e | ⟨ps4, ois2, t2⟩
        · rw [hrec] at hok
          cases hok
        · rw [hrec] at hok
          cases hok
          have ht2 := ih _ _ _ _ hrec
          simp [cartSubtotal, List.map_cons, List.sum_cons, ht2]

lemma processCartItems_ok_stock (oid : Nat) :
    ∀ (cart : Cart) (ps : List Product) (out : List Product × List OrderItem × Int),
      (cart.map Prod.fst).Nodup →
      processCartItems oid cart ps = Except.ok out →
      ∀ line ∈ cart, ∀ p, ps.find? (fun q => decide (q.id = line.1)) = some p →
        (line.2.quantity : Int) ≤ p.available_in_stock := by
  intro cart
  induction cart with
  | nil =>
    intro ps out hnd hok line hline
    simp at hline
  | cons hd tl ih =>
    intro ps out hnd hok line hline p hp
    simp only [processCartItems] at hok
    rcases hfind : ps.find? (fun q => decide (q.id = hd.1)) with _ | q
    · rw [hfind] at hok
      cases hok
    · rw [hfind] at hok
      dsimp only at hok
      by_cases hlt : q.available_in_stock < (hd.2.quantity : Int)
      · rw [if_pos hlt] at hok
        cases hok
      · rw [if_neg hlt] at hok
        rcases List.mem_cons.mp hline with hline | hline
        · subst hline
          rw [hfind] at hp
          cases hp
          omega
        · rw [List.map_cons] at hnd
          have hnd2 := List.nodup_cons.mp hnd
          have hne : line.1 ≠ hd.1 := by
            intro hcontra
            exact hnd2.1 (hcontra ▸ List.mem_map_of_mem Prod.fst hline)
          rcases hrec : processCartItems oid tl (ps.map (fun q2 =>
              if q2.id = hd.1 then
                { q2 with available_in_stock := q2.available_in_stock - (hd.2.quantity : Int) }
              else q2)) with e | res
          · rw [hrec] at hok
            cases hok
          · apply ih _ res hnd2.2 hrec line hline p
            rw [stockOf_decrement_other hd.1 line.1 (hd.2.quantity : Int) hne ps]
            exact hp

/-- C1 counterexample: kitchen staff of restaurant 1 (owner scope 1)
successfully confirms and mutates pending order 890, whose table belongs
to restaurant 9, and order_list shows that cross-tenant order to them:
confirm_order and order_list apply no tenant filter. -/
theorem C1_counterexample :
    get_owner_filter kitchen2 = Except.ok (OwnerFilter.only 1) ∧
    orderTableOwner wdb o890 = some 9 ∧
    (confirm_order wdb kitchen2 890).2 = ViewResult.ok "confirmed" ∧
    ((confirm_order wdb kitchen2 890).1.findOrder 890).map Order.status
      = some OrderStatus.confirmed ∧
    o890 ∈ order_list wdb kitchen2 :=
  ⟨rfl, by decide, by decide, by decide, by decide⟩

/-- C1 (amended): confirm_order succeeds only for kitchen staff and only
on an existing pending order - with no tenant restriction - and
order_list restricts a customer-care principal to the orders they placed
themselves; other principals receive the unfiltered order list. -/
theorem C1_order_access_amended (db : DB) (u : User) (oid : Nat) :
    ((∃ m, (confirm_order db u oid).2 = ViewResult.ok m) →
      u.is_kitchen_staff = true ∧
      ∃ o ∈ db.orders, o.id = oid ∧ o.status = OrderStatus.pending) ∧
    (u.is_customer_care = true → ∀ o ∈ order_list db u, o.ordered_by = u.id) := by
  constructor
  · rintro ⟨m, hm⟩
    by_cases hk : u.is_kitchen_staff = true
    · refine ⟨hk, ?_⟩
      unfold confirm_order at hm
      simp only [hk, Bool.not_true, Bool.false_eq_true, if_false] at hm
      rcases hfind : db.orders.find?
          (fun o => decide (o.id = oid) && decide (o.status = OrderStatus.pending)) with _ | o
      · rw [hfind] at hm
        cases hm
      · have hp := List.find?_some hfind
        have hmem := List.mem_of_find?_eq_some hfind
        simp only [Bool.and_eq_true, decide_eq_true_eq] at hp
        exact ⟨o, hmem, hp.1, hp.2⟩
    · unfold confirm_order at hm
      simp only [Bool.not_eq_true] at hk
      simp only [hk, Bool.not_false, if_true] at hm
      cases hm
  · intro hc o ho
    unfold order_list at ho
    simp only [hc, if_true] at ho
    have hmf := List.mem_filter.mp ho
    simpa using hmf.2

/-- C1 witness: the amended theorem applied to the concrete store, at the
successful cross-tenant confirmation of order 890. -/
theorem C1_order_access_amended_witness :
    kitchen2.is_kitchen_staff = true ∧
    ∃ o ∈ wdb.orders, o.id = 890 ∧ o.status = OrderStatus.pending :=
  (C1_order_access_amended wdb kitchen2 890).1 ⟨"confirmed", by decide⟩

/-- C2 counterexample: update_order_status moves confirmed order 810 to
cancelled and reports success, yet the stock of product 21 - referenced
by a line of quantity 2 - stays at 10 instead of rising to 12: this
cancellation path restores no stock. -/
theorem C2_counterexample :
    (update_order_status wdb kitchen2 810 OrderStatus.cancelled "mistake").2
      = ViewResult.ok "updated" ∧
    ((update_order_status wdb kitchen2 810 OrderStatus.cancelled "mistake").1.findOrder 810).map
      Order.status = some OrderStatus.cancelled ∧
    (wdb.findOrder 810).map Order.status = some OrderStatus.confirmed ∧
    (order_items_of wdb 810).map (fun it => (it.product, it.quantity)) = [(21, 2), (22, 1)] ∧
    ((update_order_status wdb kitchen2 810 OrderStatus.cancelled "mistake").1.findProduct 21).map
      Product.available_in_stock = some 10 ∧
    (wdb.findProduct 21).map Product.available_in_stock = some 10 := by
  decide

/-- C2 (amended): cancel_order and customer_cancel_order, when they
succeed, add every line quantity of the cancelled order back onto its
product stock, while a status update to cancelled through
update_order_status leaves every product row - and hence all stock -
unchanged. -/
theorem C2_stock_restore_amended (db : DB) (u : User) (oid : Nat) (r : String) (ns : OrderStatus) :
    ((∃ m, (cancel_order db u oid r).2 = ViewResult.ok m) →
       (cancel_order db u oid r).1.products
         = db.products.map (fun p =>
             { p with available_in_stock :=
                 p.available_in_stock + (restoredQty (order_items_of db oid) p.id : Int) }))
  ∧ ((∃ m, (customer_cancel_order db u oid r).2 = ViewResult.ok m) →
       (customer_cancel_order db u oid r).1.products
         = db.products.map (fun p =>
             { p with available_in_stock :=
                 p.available_in_stock + (restoredQty (order_items_of db oid) p.id : Int) }))
  ∧ (update_order_status db u oid ns r).1.products = db.products := by
  refine ⟨?_, ?_, ?_⟩
  · rintro ⟨m, hm⟩
    rcases hco : cancel_order db u oid r with ⟨db2, res⟩
    rw [hco] at hm
    dsimp only at hm ⊢
    unfold cancel_order at hco
    dsimp only at hco
    split at hco
    · cases hco; cases hm
    split at hco
    · cases hco; cases hm
    rename_i sc1 f hf
    split at hco
    · cases hco; cases hm
    rename_i sc2 o ho
    split at hco
    · cases hco; cases hm
    split at hco
    · cases hco; cases hm
    cases hco
    have hid : o.id = oid := by
      unfold DB.findOrderScoped at ho
      have hp := List.find?_some ho
      simp only [Bool.and_eq_true, decide_eq_true_eq] at hp
      exact hp.1
    simp only [setOrder_products, release_table_products]
    rw [hid, restoreStock_eq]
  · rintro ⟨m, hm⟩
    rcases hco : customer_cancel_order db u oid r with ⟨db2, res⟩
    rw [hco] at hm
    dsimp only at hm ⊢
    unfold customer_cancel_order at hco
    dsimp only at hco
    split at hco
    · cases hco; cases hm
    split at hco
    · cases hco; cases hm
    rename_i sc1 o ho
    split at hco
    · cases hco; cases hm
    cases hco
    have hid : o.id = oid := by
      split at ho
      · rcases hfind : db.orders.find?
            (fun x => decide (x.id = oid) && decide (x.ordered_by = u.id)) with _ | o2
        · rw [hfind] at ho
          cases ho
        · rw [hfind] at ho
          cases ho
          have hp := List.find?_some hfind
          simp only [Bool.and_eq_true, decide_eq_true_eq] at hp
          exact hp.1
      · split at ho
        · cases ho
        · rename_i f hf
          rcases hfind : db.findOrderScoped oid f with _ | o2
          · rw [hfind] at ho
            cases ho
          · rw [hfind] at ho
            cases ho
            unfold DB.findOrderScoped at hfind
            have hp := List.find?_some hfind
            simp only [Bool.and_eq_true, decide_eq_true_eq] at hp
            exact hp.1
    simp only [setOrder_products, release_table_products]
    rw [hid, restoreStock_eq]
  · rcases hup : update_order_status db u oid ns r with ⟨db2, res⟩
    dsimp only
    unfold update_order_status at hup
    dsimp only at hup
    repeat' split at hup
    all_goals cases hup
    all_goals first
      | rfl
      | (simp only [setOrder_products, release_table_products])

/-- C2 witness: the amended theorem applied at the successful kitchen
cancellation of preparing order 820 in the concrete store. -/
theorem C2_stock_restore_amended_witness :
    (cancel_order wdb kitchen2 820 "mistake").1.products
      = wdb.products.map (fun p =>
          { p with available_in_stock :=
              p.available_in_stock + (restoredQty (order_items_of wdb 820) p.id : Int) }) :=
  (C2_stock_restore_amended wdb kitchen2 820 "mistake" OrderStatus.cancelled).1
    ⟨"cancelled", by decide⟩

/-- C3 counterexample: order 850 stands in the terminal waste status
wasted, yet cancel_order accepts it and moves it to cancelled - a status
change along no edge of the paragraph 4.3 graph. -/
theorem C3_counterexample :
    (wdb.findOrder 850).map Order.status = some OrderStatus.wasted ∧
    (cancel_order wdb kitchen2 850 "mistake").2 = ViewResult.ok "cancelled" ∧
    ((cancel_order wdb kitchen2 850 "mistake").1.findOrder 850).map Order.status
      = some OrderStatus.cancelled ∧
    specEdge OrderStatus.wasted OrderStatus.cancelled = false := by
  decide

/-- C3 (amended): every status change update_order_status accepts moves
along an edge of the paragraph 4.3 graph; a kitchen-staff request to move
a pending order straight to preparing or served is answered Invalid
status transition with the store unchanged; cancel_order, however,
constrains its source status only to be neither served nor cancelled, so
it also cancels orders already in a terminal waste status. -/
theorem C3_state_machine_amended (db : DB) (u : User) (oid : Nat) (ns : OrderStatus) (r : String)
    (f : OwnerFilter) (o : Order)
    (hf : get_owner_filter u = Except.ok f)
    (ho : db.findOrderScoped oid f = some o) :
    ((∃ m, (update_order_status db u oid ns r).2 = ViewResult.ok m) → specEdge o.status ns = true)
  ∧ (u.is_kitchen_staff = true → db.orderHasStation o Station.kitchen = true →
      o.status = OrderStatus.pending →
      (ns = OrderStatus.preparing ∨ ns = OrderStatus.served) →
      update_order_status db u oid ns r = (db, ViewResult.err "Invalid status transition."))
  ∧ ((∃ m, (cancel_order db u oid r).2 = ViewResult.ok m) →
      o.status ≠ OrderStatus.served ∧ o.status ≠ OrderStatus.cancelled) := by
  refine ⟨?_, ?_, ?_⟩
  · rintro ⟨m, hm⟩
    rcases hup : update_order_status db u oid ns r with ⟨db2, res⟩
    rw [hup] at hm
    dsimp only at hm
    unfold update_order_status at hup
    dsimp only at hup
    split at hup
    · cases hup; cases hm
    split at hup
    · cases hup; cases hm
    rename_i sc1 f2 hf2
    rw [hf] at hf2
    injection hf2 with hf2e
    subst hf2e
    split at hup
    · cases hup; cases hm
    split at hup
    · cases hup; cases hm
    rename_i sc2 o2 ho2
    rw [ho] at ho2
    injection ho2 with ho2e
    subst ho2e
    split at hup
    · cases hup; cases hm
    split at hup
    · cases hup; cases hm
    split at hup
    · cases hup; cases hm
    rename_i hval
    have hmemv : ns ∈ valid_transitions_staff o.status := by
      simpa using hval
    exact staff_transitions_subgraph _ _ hmemv
  · intro hk hst hpend hns
    have hrole : u.role = some RoleName.kitchen := of_decide_eq_true hk
    have hbar : u.is_bar_staff = false := by
      simp [User.is_bar_staff, hrole]
    rcases hns with hns | hns <;>
      (subst hns
       unfold update_order_status
       simp [hk, hbar, hf, ho, hst, hpend, allowedTargets, valid_transitions_staff])
  · rintro ⟨m, hm⟩
    rcases hco : cancel_order db u oid r with ⟨db2, res⟩
    rw [hco] at hm
    dsimp only at hm
    unfold cancel_order at hco
    dsimp only at hco
    split at hco
    · cases hco; cases hm
    split at hco
    · cases hco; cases hm
    rename_i sc1 f2 hf2
    rw [hf] at hf2
    injection hf2 with hf2e
    subst hf2e
    split at hco
    · cases hco; cases hm
    rename_i sc2 o2 ho2
    rw [ho] at ho2
    injection ho2 with ho2e
    subst ho2e
    split at hco
    · cases hco; cases hm
    rename_i hstat
    exact ⟨fun h => hstat (Or.inl h), fun h => hstat (Or.inr h)⟩

/-- C3 witness: a kitchen-staff request to move pending order 800
straight to preparing is rejected as an invalid transition with the
store unchanged. -/
theorem C3_state_machine_amended_witness :
    update_order_status wdb kitchen2 800 OrderStatus.preparing ""
      = (wdb, ViewResult.err "Invalid status transition.") :=
  (C3_state_machine_amended wdb kitchen2 800 OrderStatus.preparing ""
      (OwnerFilter.only 1) o800 rfl (by decide)).2.1
    rfl (by decide) rfl (Or.inl rfl)

/-- C4 counterexample: the paragraph 8 scenario cart (two of A at 5.000,
one of B at its promotion price 7.200, amounts in thousandths of a
currency unit) placed at a tenant whose configured tax rate is 8 percent
yields a persisted total_amount of 17.200 - the bare promotion-priced
subtotal - not the claimed (10.000 + 7.200) * 1.08 = 18.576. -/
theorem C4_counterexample :
    (place_order wdb cust5 goodCart "2" (some 1) "ORD-NEW1" true).2 = PlaceResult.placed 891 ∧
    ((place_order wdb cust5 goodCart "2" (some 1) "ORD-NEW1" true).1.findOrder 891).map
      Order.total_amount = some 17200 ∧
    owner1.tax_rate = 80 ∧
    ((10000 + 7200) * (1000 + 80) / 1000 : Int) = 18576 ∧
    (17200 : Int) ≠ 18576 := by
  decide

/-- C4 (amended): after a successful placement the persisted order
carries the requested order number, status pending, and a total_amount
equal to the cart subtotal at the promotion-resolved line prices - no
tax factor is applied. -/
theorem C4_total_amount_amended (db : DB) (u : User) (cart : Cart) (tno : String)
    (rid : Option Nat) (num : String) (pok : Bool) (oid : Nat)
    (h : (place_order db u cart tno rid num pok).2 = PlaceResult.placed oid) :
    ∃ o ∈ (place_order db u cart tno rid num pok).1.orders,
      o.id = oid ∧ o.order_number = num ∧ o.status = OrderStatus.pending ∧
      o.total_amount = cartSubtotal cart := by
  rcases hpo : place_order db u cart tno rid num pok with ⟨db2, res⟩
  rw [hpo] at h
  dsimp only at h
  unfold place_order at hpo
  dsimp only at hpo
  split at hpo
  · cases hpo; cases h
  split at hpo
  · cases hpo; cases h
  split at hpo
  · cases hpo; cases h
  split at hpo
  · cases hpo; cases h
  split at hpo
  · rename_i sc3 e hproc
    cases hpo; cases h
  rename_i sc3 ps2 ois total hproc
  split at hpo
  · cases hpo
    cases h
    have htot := processCartItems_total _ _ _ _ _ _ hproc
    unfold DB.setOrder
    dsimp only
    rw [createOrder_orders]
    refine ⟨_, List.mem_map_of_mem _
      (List.mem_append_right db.orders (List.mem_singleton.mpr rfl)), ?_⟩
    simp [htot]
  · cases hpo; cases h

/-- C4 witness: the amended theorem applied to the successful placement
of the scenario cart in the concrete store. -/
theorem C4_total_amount_amended_witness :
    ∃ o ∈ (place_order wdb cust5 goodCart "2" (some 1) "ORD-NEW1" true).1.orders,
      o.id = 891 ∧ o.order_number = "ORD-NEW1" ∧ o.status = OrderStatus.pending ∧
      o.total_amount = cartSubtotal goodCart :=
  C4_total_amount_amended wdb cust5 goodCart "2" (some 1) "ORD-NEW1" true 891 (by decide)

/-- C5: if some cart line asks for more than its product currently has in
stock, placement never succeeds and the whole store - orders, lines,
stock, and table availability - is exactly what it was before the call. -/
theorem C5_insufficient_stock_aborts (db : DB) (u : User) (cart : Cart) (tno : String)
    (rid : Option Nat) (num : String) (pok : Bool)
    (hnd : (cart.map Prod.fst).Nodup)
    (hex : ∃ line ∈ cart,
      (db.products.find? (fun q => decide (q.id = line.1))).map
        (fun p => decide (p.available_in_stock < (line.2.quantity : Int))) = some true) :
    (place_order db u cart tno rid num pok).1 = db ∧
    ∀ oid, (place_order db u cart tno rid num pok).2 ≠ PlaceResult.placed oid := by
  rcases hpo : place_order db u cart tno rid num pok with ⟨db2, res⟩
  dsimp only
  unfold place_order at hpo
  dsimp only at hpo
  split at hpo
  · cases hpo
    exact ⟨rfl, fun oid h => by cases h⟩
  split at hpo
  · cases hpo
    exact ⟨rfl, fun oid h => by cases h⟩
  split at hpo
  · cases hpo
    exact ⟨rfl, fun oid h => by cases h⟩
  split at hpo
  · cases hpo
    exact ⟨rfl, fun oid h => by cases h⟩
  split at hpo
  · cases hpo
    exact ⟨rfl, fun oid h => by cases h⟩
  rename_i sc3 ps2 ois total hproc
  exfalso
  obtain ⟨line, hline, hopt⟩ := hex
  rcases hfp : db.products.find? (fun q => decide (q.id = line.1)) with _ | p
  · rw [hfp] at hopt
    cases hopt
  · rw [hfp] at hopt
    simp only [Option.map_some', Option.some.injEq] at hopt
    have hlt : p.available_in_stock < (line.2.quantity : Int) := of_decide_eq_true hopt
    have hge := processCartItems_ok_stock _ _ _ _ hnd hproc line hline p (by
      rw [createOrder_products]
      exact hfp)
    omega

/-- C5 witness: placing a cart that asks for eleven of product A while
only ten are in stock fails and leaves the concrete store untouched. -/
theorem C5_insufficient_stock_aborts_witness :
    (place_order wdb cust5 lowCart "2" (some 1) "ORD-NEW2" true).1 = wdb ∧
    ∀ oid, (place_order wdb cust5 lowCart "2" (some 1) "ORD-NEW2" true).2
      ≠ PlaceResult.placed oid :=
  C5_insufficient_stock_aborts wdb cust5 lowCart "2" (some 1) "ORD-NEW2" true
    (by decide) (by decide)

/-- C6 counterexample: with a failing publish the very placement that
otherwise succeeds is rolled back whole and an error is surfaced - the
opposite of the claimed fire-and-forget isolation. -/
theorem C6_counterexample :
    place_order wdb cust5 goodCart "2" (some 1) "ORD-NEW1" false
      = (wdb, PlaceResult.failed "Error placing order: notification failure") ∧
    (place_order wdb cust5 goodCart "2" (some 1) "ORD-NEW1" true).2 = PlaceResult.placed 891 := by
  decide

/-- C6 (amended): when publishing the placement events fails, place_order
always answers with an error and the store is exactly the one before the
call - the order, its lines, the stock decrements and the occupancy flag
are all rolled back, because the publishes sit inside the transaction. -/
theorem C6_publish_failure_amended (db : DB) (u : User) (cart : Cart) (tno : String)
    (rid : Option Nat) (num : String) :
    ∃ m, place_order db u cart tno rid num false = (db, PlaceResult.failed m) := by
  unfold place_order
  dsimp only
  repeat' split
  all_goals first
    | exact ⟨_, rfl⟩
    | simp_all

/-- C7 counterexample: a placement whose generated order number collides
with existing order ORD-810 fails and surfaces the error to the caller -
there is no retry-with-regeneration loop. -/
theorem C7_counterexample :
    place_order wdb cust5 goodCart "2" (some 1) "ORD-810" true
      = (wdb, PlaceResult.failed "Error placing order: duplicate order number") := by
  decide

/-- C7 (amended): whenever the single generated order number already
belongs to a stored order, place_order fails - for every cart, session
and publish outcome - and leaves the store unchanged. -/
theorem C7_duplicate_number_amended (db : DB) (u : User) (cart : Cart) (tno : String)
    (rid : Option Nat) (num : String) (pok : Bool)
    (hdup : ∃ o ∈ db.orders, o.order_number = num) :
    ∃ m, place_order db u cart tno rid num pok = (db, PlaceResult.failed m) := by
  obtain ⟨o, ho, hnum⟩ := hdup
  have hany : db.orders.any (fun x => decide (x.order_number = num)) = true :=
    List.any_eq_true.mpr ⟨o, ho, decide_eq_true hnum⟩
  unfold place_order
  dsimp only
  split
  · exact ⟨_, rfl⟩
  split
  · exact ⟨_, rfl⟩
  split
  all_goals exact ⟨_, rfl⟩

/-- C7 witness: the amended theorem applied at the concrete collision
with order number ORD-810. -/
theorem C7_duplicate_number_amended_witness :
    ∃ m, place_order wdb cust5 goodCart "2" (some 1) "ORD-810" true
      = (wdb, PlaceResult.failed m) :=
  C7_duplicate_number_amended wdb cust5 goodCart "2" (some 1) "ORD-810" true (by decide)

/-- C8 counterexample: the backward correction confirmed to pending is
rejected outright as Invalid status (pending is not an accepted target),
and a principal holding only the owner role is denied access to
update_order_status altogether. -/
theorem C8_counterexample :
    update_order_status wdb kitchen2 810 OrderStatus.pending ""
      = (wdb, ViewResult.err "Invalid status.") ∧
    (wdb.findOrder 810).map Order.status = some OrderStatus.confirmed ∧
    update_order_status wdb owner1 830 OrderStatus.served ""
      = (wdb, ViewResult.err "Access denied.") := by
  decide

/-- C8 (amended): for kitchen staff (and symmetrically bar staff) whose
station check passes, update_order_status accepts the backward
corrections preparing to confirmed, ready to preparing, and served to
ready, leaving all product rows and all table rows - stock and occupancy
- unchanged; the target pending is always rejected as Invalid status,
and an owner-role principal is rejected with Access denied. -/
theorem C8_backward_amended (db : DB) (u : User) (oid : Nat) (ns : OrderStatus) (r : String)
    (f : OwnerFilter) (o : Order)
    (hf : get_owner_filter u = Except.ok f)
    (ho : db.findOrderScoped oid f = some o) :
    (u.is_kitchen_staff = true → db.orderHasStation o Station.kitchen = true →
      (o.status, ns) ∈ [(OrderStatus.preparing, OrderStatus.confirmed),
                        (OrderStatus.ready, OrderStatus.preparing),
                        (OrderStatus.served, OrderStatus.ready)] →
      (update_order_status db u oid ns r).2 = ViewResult.ok "updated" ∧
      (update_order_status db u oid ns r).1.products = db.products ∧
      (update_order_status db u oid ns r).1.tables = db.tables)
  ∧ (u.is_bar_staff = true → db.orderHasStation o Station.bar = true →
      (o.status, ns) ∈ [(OrderStatus.preparing, OrderStatus.confirmed),
                        (OrderStatus.ready, OrderStatus.preparing),
                        (OrderStatus.served, OrderStatus.ready)] →
      (update_order_status db u oid ns r).2 = ViewResult.ok "updated" ∧
      (update_order_status db u oid ns r).1.products = db.products ∧
      (update_order_status db u oid ns r).1.tables = db.tables)
  ∧ ((u.is_kitchen_staff = true ∨ u.is_bar_staff = true) →
      update_order_status db u oid OrderStatus.pending r = (db, ViewResult.err "Invalid status."))
  ∧ (u.role = some RoleName.owner →
      update_order_status db u oid ns r = (db, ViewResult.err "Access denied.")) := by
  refine ⟨?_, ?_, ?_, ?_⟩
  · intro hk hst hmem
    have hrole : u.role = some RoleName.kitchen := of_decide_eq_true hk
    have hbar : u.is_bar_staff = false := by
      simp [User.is_bar_staff, hrole]
    simp only [List.mem_cons, List.mem_singleton, Prod.mk.injEq, List.not_mem_nil,
      or_false] at hmem
    rcases hmem with ⟨hs1, hs2⟩ | ⟨hs1, hs2⟩ | ⟨hs1, hs2⟩ <;>
      (subst hs2
       unfold update_order_status
       simp [hk, hbar, hf, ho, hst, hs1, allowedTargets, valid_transitions_staff,
             setOrder_products, setOrder_tables])
  · intro hb hst hmem
    have hrole : u.role = some RoleName.bar := of_decide_eq_true hb
    have hkit : u.is_kitchen_staff = false := by
      simp [User.is_kitchen_staff, hrole]
    simp only [List.mem_cons, List.mem_singleton, Prod.mk.injEq, List.not_mem_nil,
      or_false] at hmem
    rcases hmem with ⟨hs1, hs2⟩ | ⟨hs1, hs2⟩ | ⟨hs1, hs2⟩ <;>
      (subst hs2
       unfold update_order_status
       simp [hb, hkit, hf, ho, hst, hs1, allowedTargets, valid_transitions_staff,
             setOrder_products, setOrder_tables])
  · intro hkb
    unfold update_order_status
    rcases hkb with hk | hb
    · simp [hk, hf, allowedTargets]
    · simp [hb, hf, allowedTargets]
  · intro hrole
    have hk : u.is_kitchen_staff = false := by
      simp [User.is_kitchen_staff, hrole]
    have hb : u.is_bar_staff = false := by
      simp [User.is_bar_staff, hrole]
    unfold update_order_status
    simp [hk, hb]

/-- C8 witness: the backward correction preparing to confirmed on order
820 succeeds for kitchen staff and leaves products and tables exactly as
they were. -/
theorem C8_backward_amended_witness :
    (update_order_status wdb kitchen2 820 OrderStatus.confirmed "").2 = ViewResult.ok "updated" ∧
    (update_order_status wdb kitchen2 820 OrderStatus.confirmed "").1.products = wdb.products ∧
    (update_order_status wdb kitchen2 820 OrderStatus.confirmed "").1.tables = wdb.tables :=
  (C8_backward_amended wdb kitchen2 820 OrderStatus.confirmed "" (OwnerFilter.only 1) o820
    rfl (by decide)).1 rfl (by decide) (by decide)

/-- C9: release on an order flips its table back to available exactly
when no other stored order on that table is in an active status
(pending, confirmed, preparing, ready or served) with payment still
unpaid or partial; when such a sibling exists the store - in particular
the availability flag - is left completely unchanged. -/
theorem C9_release_table_spec (db : DB) (o : Order) :
    ((¬ ∃ x ∈ db.orders, x.id ≠ o.id ∧ x.table_info = o.table_info ∧
        isActiveStatus x.status = true ∧ isUnpaidOrPartialPay x.payment_status = true) →
      release_table db o = db.setTableAvailable o.table_info true ∧
      ∀ t ∈ (release_table db o).tables, t.id = o.table_info → t.is_available = true)
  ∧ ((∃ x ∈ db.orders, x.id ≠ o.id ∧ x.table_info = o.table_info ∧
        isActiveStatus x.status = true ∧ isUnpaidOrPartialPay x.payment_status = true) →
      release_table db o = db) := by
  have hiff : (db.orders.filter (fun x =>
      decide (x.table_info = o.table_info) && isActiveStatus x.status &&
      isUnpaidOrPartialPay x.payment_status && decide (x.id ≠ o.id))).isEmpty = true ↔
      ¬ ∃ x ∈ db.orders, x.id ≠ o.id ∧ x.table_info = o.table_info ∧
        isActiveStatus x.status = true ∧ isUnpaidOrPartialPay x.payment_status = true := by
    rw [List.isEmpty_iff, List.filter_eq_nil_iff]
    constructor
    · rintro h ⟨x, hx, hne, hti, hs, hp⟩
      have hh := h x hx
      simp only [Bool.and_eq_true, decide_eq_true_eq] at hh
      exact hh ⟨⟨⟨hti, hs⟩, hp⟩, hne⟩
    · intro h x hx
      simp only [Bool.and_eq_true, decide_eq_true_eq]
      rintro ⟨⟨⟨hti, hs⟩, hp⟩, hne⟩
      exact h ⟨x, hx, hne, hti, hs, hp⟩
  constructor
  · intro hno
    have he : (db.orders.filter (fun x =>
        decide (x.table_info = o.table_info) && isActiveStatus x.status &&
        isUnpaidOrPartialPay x.payment_status && decide (x.id ≠ o.id))).isEmpty = true :=
      hiff.mpr hno
    have hrel : release_table db o = db.setTableAvailable o.table_info true := by
      unfold release_table
      dsimp only
      rw [he]
      rfl
    refine ⟨hrel, ?_⟩
    intro t ht hid
    rw [hrel] at ht
    unfold DB.setTableAvailable at ht
    simp only [List.mem_map] at ht
    obtain ⟨t0, _, hmap⟩ := ht
    by_cases hc : t0.id = o.table_info
    · rw [if_pos hc] at hmap
      rw [← hmap]
    · rw [if_neg hc] at hmap
      rw [← hmap] at hid
      exact absurd hid hc
  · intro hyes
    have he : (db.orders.filter (fun x =>
        decide (x.table_info = o.table_info) && isActiveStatus x.status &&
        isUnpaidOrPartialPay x.payment_status && decide (x.id ≠ o.id))).isEmpty = false := by
      cases hb : (db.orders.filter (fun x =>
        decide (x.table_info = o.table_info) && isActiveStatus x.status &&
        isUnpaidOrPartialPay x.payment_status && decide (x.id ≠ o.id))).isEmpty
      · rfl
      · exact absurd hyes (hiff.mp hb)
    unfold release_table
    dsimp only
    rw [he]
    rfl

/-- C9 witness: releasing wasted order 850 - alone on table 12 - flips
the table available, while releasing order 800 leaves the store alone
because confirmed order 810 still occupies table 11. -/
theorem C9_release_table_spec_witness :
    release_table wdb o850 = wdb.setTableAvailable o850.table_info true ∧
    release_table wdb o800 = wdb := by
  constructor
  · exact ((C9_release_table_spec wdb o850).1 (by decide)).1
  · exact (C9_release_table_spec wdb o800).2 (by decide)

/-- C10: customer_cancel_order, called by a customer on their own order,
succeeds only when that order is still exactly pending; on any other
status the view answers that the order has already been confirmed and
returns the store unchanged - status, stock and occupancy untouched. -/
theorem C10_customer_cancel_pending_only (db : DB) (u : User) (oid : Nat) (r : String) (o : Order)
    (hu : u.is_customer = true)
    (ho : db.orders.find? (fun x => decide (x.id = oid) && decide (x.ordered_by = u.id)) = some o) :
    (o.status ≠ OrderStatus.pending →
       customer_cancel_order db u oid r =
         (db, ViewResult.err "Order cannot be cancelled. It has already been confirmed by the kitchen."))
  ∧ ((∃ m, (customer_cancel_order db u oid r).2 = ViewResult.ok m) →
      o.status = OrderStatus.pending) := by
  have hentry : (!(u.is_customer || u.is_customer_care)) = false := by
    simp [hu]
  have hkey : o.status ≠ OrderStatus.pending →
      customer_cancel_order db u oid r =
        (db, ViewResult.err "Order cannot be cancelled. It has already been confirmed by the kitchen.") := by
    intro hs
    unfold customer_cancel_order
    simp only [hu, Bool.true_or, Bool.not_true, Bool.false_eq_true, if_false, if_true, ho]
    rw [if_pos hs]
  constructor
  · exact hkey
  · rintro ⟨m, hm⟩
    by_contra hne
    rw [hkey hne] at hm
    cases hm

/-- C10 witness: the customer who placed confirmed order 810 cannot
cancel it; the view answers that it has already been confirmed and the
store is unchanged. -/
theorem C10_customer_cancel_pending_only_witness :
    customer_cancel_order wdb cust5 810 "changed my mind" =
      (wdb, ViewResult.err "Order cannot be cancelled. It has already been confirmed by the kitchen.") :=
  (C10_customer_cancel_pending_only wdb cust5 810 "changed my mind" o810 rfl (by decide)).1
    (by decide)

end EasyFix
